import Mathlib

/-!
Verification of the COVID Dagster pipeline (`ProyectoFinal/defs/assets.py`).

Shallow embedding conventions:
* A dataframe is a `List Row`; a missing cell (pandas `NaN`/`NaT`) is `none`.
* Float columns are embedded as `ℚ`; a float column that can carry the IEEE
  special values produced by division is embedded as `FVal`
  (`nan`, `inf`, `ninf`, or an ordinary value `val q`).
* Each asset / asset-check function of the source file becomes a Lean
  definition with the same name.
-/

/-- One row of the OWID frame as read by `leer_datos` (columns `location`,
`date`, `new_cases`, `people_vaccinated`, `population`).  `date` is the
parsed date (days since some epoch); `none` is pandas `NaT`/`NaN`. -/
structure Row where
  location : String
  date : Option Int
  new_cases : Option ℚ
  people_vaccinated : Option ℚ
  population : Option ℚ
deriving DecidableEq, Repr, Inhabited

/-- `PERU_ECUADOR = ["Peru", "Ecuador"]` (module-level constant). -/
def PERU_ECUADOR : List String := ["Peru", "Ecuador"]

/-- Python `str.strip()` on the character list: drop whitespace at both ends. -/
def trimChars (l : List Char) : List Char :=
  ((l.dropWhile Char.isWhitespace).reverse.dropWhile Char.isWhitespace).reverse

/-- Python `str.title()`: a cased character that follows an alphabetic
character is lowercased, any other cased character is uppercased.  The
Boolean argument records whether the previous character was alphabetic. -/
def titleChars : List Char → Bool → List Char
  | [], _ => []
  | c :: cs, prevAlpha =>
    (if prevAlpha then c.toLower else c.toUpper) :: titleChars cs c.isAlpha

/-- `.astype(str).str.strip().str.title()` applied to one location string
(used both by `leer_datos` and by the país rule of `chequeos_entrada`). -/
def normLoc (s : String) : String :=
  String.mk (titleChars (trimChars s.data) false)

/-- The `(location, date)` key used by `duplicated` / `drop_duplicates`
(pandas treats two `NaT` dates as equal keys, as does `Option` equality). -/
def rkey (r : Row) : String × Option Int := (r.location, r.date)

example : normLoc "  peru " = "Peru" := by decide
example : normLoc "ECUADOR" = "Ecuador" := by decide

/-- The input of `chequeos_entrada`: the dataframe together with which of the
columns the gate inspects are present in the schema (`col in df.columns`).
Row fields of an absent column are never read by the embedded rules, exactly
as the source only reads a column under its presence test. -/
structure Frame where
  hasLocation : Bool
  hasDate : Bool
  hasNewCases : Bool
  hasPopulation : Bool
  rows : List Row
deriving DecidableEq, Repr, Inhabited

/-- One entry of the `rules` list built by `chequeos_entrada`: rule name,
pass flag, and the single numeric metadata count when the source attaches one
(`filas_duplicadas` resp. `negativos`). -/
structure RuleRes where
  rule : String
  passed : Bool
  meta : Option Nat
deriving DecidableEq, Repr, Inhabited

/-- One row of the `resumen` table built by `chequeos_entrada`. -/
structure ResumenRow where
  nombre_regla : String
  estado : String
  filas_afectadas : String
  notas : String
deriving DecidableEq, Repr, Inhabited

/-- The `dg.AssetCheckResult` of `chequeos_entrada`, keeping the rule list
and the rendered summary table (stored in the metadata by the source). -/
structure CheckResult where
  passed : Bool
  rules : List RuleRes
  resumen : List ResumenRow
deriving DecidableEq, Repr, Inhabited

/-- `{col} presente` rule: passes iff the column is in the schema. -/
def reglaPresencia (name : String) (present : Bool) : RuleRes :=
  ⟨name ++ " presente", present, none⟩

/-- `datos de Perú o Ecuador presentes`: when `location` is present, passes
iff some row's normalized location is in `PERU_ECUADOR`
(`locations.isin(PERU_ECUADOR).any()`); otherwise `passed=False`. -/
def reglaPaises (f : Frame) : RuleRes :=
  if f.hasLocation then
    ⟨"datos de Perú o Ecuador presentes",
      f.rows.any (fun r => PERU_ECUADOR.contains (normLoc r.location)), none⟩
  else
    ⟨"datos de Perú o Ecuador presentes", false, none⟩

/-- `pd.to_datetime(col).max()`: maximum of the non-null dates, `none`
(`NaT`) when the column is empty or all-null. -/
def maxDate (rows : List Row) : Option Int :=
  rows.foldl
    (fun acc r =>
      match acc, r.date with
      | none, d => d
      | some m, none => some m
      | some m, some d => some (max m d))
    none

/-- `fecha máxima razonable`: `max_date <= today + 30` with a `NaT` maximum
comparing false; `passed=False` when `date` is absent. -/
def reglaFecha (today : Int) (f : Frame) : RuleRes :=
  let ok :=
    if f.hasDate then
      match maxDate f.rows with
      | some m => decide (m ≤ today + 30)
      | none => false
    else false
  ⟨"fecha máxima razonable", ok, none⟩

/-- `df.duplicated(subset=["location","date"]).sum()`: every occurrence of a
key other than its first is marked, so the count is the number of rows minus
the number of distinct keys. -/
def dupCount (rows : List Row) : Nat :=
  rows.length - (rows.map rkey).dedup.length

/-- `unicidad (location, date)`: zero marked duplicates; the count defaults
to `0` (hence `passed=True`) when either key column is absent. -/
def reglaUnicidad (f : Frame) : RuleRes :=
  let d := if f.hasLocation && f.hasDate then dupCount f.rows else 0
  ⟨"unicidad (location, date)", decide (d = 0), some d⟩

/-- `population > 0`: `(df["population"] > 0).all()` — a null population
compares false; `passed=False` when the column is absent. -/
def reglaPoblacion (f : Frame) : RuleRes :=
  let ok :=
    if f.hasPopulation then
      f.rows.all (fun r =>
        match r.population with
        | some p => decide (0 < p)
        | none => false)
    else false
  ⟨"population > 0", ok, none⟩

/-- `new_cases ≥ 0`: counts rows with `new_cases < 0` (a null compares
false); the count defaults to `0` (hence `passed=True`) when the column is
absent. -/
def reglaNuevosCasos (f : Frame) : RuleRes :=
  let neg :=
    if f.hasNewCases then
      f.rows.countP (fun r =>
        match r.new_cases with
        | some c => decide (c < 0)
        | none => false)
    else 0
  ⟨"new_cases ≥ 0", decide (neg = 0), some neg⟩

/-- The `rules` list of `chequeos_entrada`, in source order. -/
def entradaRules (today : Int) (f : Frame) : List RuleRes :=
  [reglaPresencia "location" f.hasLocation,
   reglaPresencia "date" f.hasDate,
   reglaPresencia "new_cases" f.hasNewCases,
   reglaPresencia "population" f.hasPopulation,
   reglaPaises f,
   reglaFecha today f,
   reglaUnicidad f,
   reglaPoblacion f,
   reglaNuevosCasos f]

/-- One `resumen` row: `filas_afectadas` is the rule's metadata count (or
`"0"`), `notas` is `"OK"` on pass and `"Continuar con advertencia"` on
failure. -/
def mkResumen (r : RuleRes) : ResumenRow :=
  ⟨r.rule, if r.passed then "Sí" else "No", toString (r.meta.getD 0),
   if r.passed then "OK" else "Continuar con advertencia"⟩

/-- `chequeos_entrada`: builds the nine rules, takes
`passed = all(r["passed"] for r in rules)` and renders the summary table.
`today` is `datetime.today()` passed in explicitly. -/
def chequeos_entrada (today : Int) (f : Frame) : CheckResult :=
  let rules := entradaRules today f
  ⟨rules.all (fun r => r.passed), rules, rules.map mkResumen⟩

/-- `df[df["location"].isin(PERU_ECUADOR)]` row predicate. -/
def keepRow (r : Row) : Bool := PERU_ECUADOR.contains r.location

/-- `dropna(subset=["new_cases", "people_vaccinated"])` row predicate. -/
def dropnaRow (r : Row) : Bool := r.new_cases.isSome && r.people_vaccinated.isSome

/-- `df.duplicated(subset=["location","date"]).any()`: some row's key occurs
again later (equivalently, earlier). -/
def hasDupKey : List Row → Bool
  | [] => false
  | r :: rs => rs.any (fun s => decide (rkey s = rkey r)) || hasDupKey rs

/-- `drop_duplicates(subset=["location","date"], keep="last")`: a row is kept
iff no later row has the same key; kept rows stay in source order. -/
def dropDupKeepLast : List Row → List Row
  | [] => []
  | r :: rs =>
    if rs.any (fun s => decide (rkey s = rkey r)) then dropDupKeepLast rs
    else r :: dropDupKeepLast rs

/-- The filter and dropna steps of `datos_procesados` (before the dedup). -/
def filtrado (df : List Row) : List Row :=
  (df.filter keepRow).filter dropnaRow

/-- `datos_procesados`: filter to `PERU_ECUADOR`, drop rows with null
`new_cases` or `people_vaccinated`, and, when a duplicate `(location, date)`
key exists, keep only its last occurrence.  The final column projection
selects exactly the five `Row` fields, hence is the identity here. -/
def datos_procesados (df : List Row) : List Row :=
  if hasDupKey (filtrado df) then dropDupKeepLast (filtrado df) else filtrado df

/-- Strict comparison of dates used by `sort_values`; a null date (`NaT`)
sorts last (`na_position="last"`). -/
def dlt : Option Int → Option Int → Bool
  | some a, some b => decide (a < b)
  | some _, none => true
  | none, _ => false

/-- Stable insertion of a row into a date-sorted list: the new row goes in
front of the first row that is not strictly earlier, so that rows with equal
dates keep their original relative order (pandas stable sort ties). -/
def insRow (r : Row) : List Row → List Row
  | [] => [r]
  | s :: ss => if dlt s.date r.date then s :: insRow r ss else r :: s :: ss

/-- Stable sort of a group's rows by ascending date
(`sort_values(["location","date"])` restricted to one location). -/
def sortByDate (l : List Row) : List Row := l.foldr insRow []

/-- Lexicographic comparison of two character lists by code point. -/
def lexLt : List Char → List Char → Bool
  | [], [] => false
  | [], _ :: _ => true
  | _ :: _, [] => false
  | c :: cs, d :: ds =>
    if c.toNat < d.toNat then true
    else if d.toNat < c.toNat then false
    else lexLt cs ds

/-- The strict order on location names used by `groupby` key sorting. -/
def locLt (a b : String) : Bool := lexLt a.data b.data

/-- Insertion of a location name into an ascending list of names. -/
def insLoc (x : String) : List String → List String
  | [] => [x]
  | y :: ys => if locLt y x then y :: insLoc x ys else x :: y :: ys

/-- Ascending sort of location names (`groupby` iterates keys in ascending
order). -/
def sortLocs (l : List String) : List String := l.foldr insLoc []

/-- The distinct locations of a frame in ascending order: the group keys of
`df.sort_values(["location","date"]).groupby("location")`. -/
def locationsOf (df : List Row) : List String :=
  sortLocs (df.map (fun r => r.location)).dedup

/-- The rows of the group of `loc`: sorting the whole frame by
`["location", "date"]` and grouping by `location` hands each group its rows
date-sorted (stable). -/
def groupRows (loc : String) (df : List Row) : List Row :=
  sortByDate (df.filter (fun r => r.location == loc))

/-- A float cell as produced by pandas arithmetic: missing (`NaN`), one of
the two infinities, or an ordinary value. -/
inductive FVal where
  | nan
  | inf
  | ninf
  | val (q : ℚ)
deriving DecidableEq, Repr, Inhabited

/-- Float division of two nullable columns: a null operand gives `NaN`;
division by zero gives `inf` / `-inf` / `NaN` according to the sign of the
numerator. -/
def fdiv : Option ℚ → Option ℚ → FVal
  | some a, some b =>
    if b = 0 then if 0 < a then .inf else if a < 0 then .ninf else .nan
    else .val (a / b)
  | _, _ => .nan

/-- `.replace([inf, -inf], None)` on one cell. -/
def replaceInf : FVal → FVal
  | .inf => .nan
  | .ninf => .nan
  | v => v

/-- `.fillna(0)` on one cell. -/
def fillna0 : FVal → FVal
  | .nan => .val 0
  | v => v

/-- Pandas `series >= c` on one cell: `NaN` compares false, `inf` is above
every bound, `-inf` below. -/
def fge (v : FVal) (c : ℚ) : Bool :=
  match v with
  | .val q => decide (c ≤ q)
  | .inf => true
  | _ => false

/-- Pandas `series <= c` on one cell. -/
def fle (v : FVal) (c : ℚ) : Bool :=
  match v with
  | .val q => decide (q ≤ c)
  | .ninf => true
  | _ => false

/-- The trailing window of width 7 ending at position `i`: the current
sample and the at most six preceding ones. -/
def win7 {α : Type} (xs : List α) (i : Nat) : List α :=
  (xs.take (i + 1)).drop (i + 1 - 7)

/-- `rolling(7).sum()` over a nullable column: position `i` holds the sum of
the window of the current and six preceding samples, defined only when the
window has seven samples, all non-null (`min_periods` defaults to the window
size). -/
def rolling7sum (xs : List (Option ℚ)) : List (Option ℚ) :=
  (List.range xs.length).map (fun i =>
    if (win7 xs i).length = 7 ∧ (win7 xs i).all (fun v => v.isSome) then
      some (((win7 xs i).filterMap id).sum)
    else none)

/-- `.shift(7)`: seven nulls in front, the tail truncated to the original
length. -/
def shift7 (xs : List (Option ℚ)) : List (Option ℚ) :=
  (List.replicate 7 none ++ xs).take xs.length

/-- `actual = g["new_cases"].rolling(7).sum()` for one group. -/
def actualSeries (g : List Row) : List (Option ℚ) :=
  rolling7sum (g.map (fun r => r.new_cases))

/-- `previa = g["new_cases"].shift(7).rolling(7).sum()` for one group. -/
def previaSeries (g : List Row) : List (Option ℚ) :=
  rolling7sum (shift7 (g.map (fun r => r.new_cases)))

/-- `factor = (actual / previa).replace([inf, -inf], None).fillna(0)`. -/
def factorSeries (g : List Row) : List FVal :=
  (List.zipWith fdiv (actualSeries g) (previaSeries g)).map
    (fun v => fillna0 (replaceInf v))

/-- One row of the growth-factor output frame. -/
structure GrowthRow where
  date : Option Int
  location : String
  casos_semana : Option ℚ
  factor_crec_7d : FVal
deriving DecidableEq, Repr, Inhabited

/-- The `tmp` frame of one group: columns `date`, `location`,
`casos_semana = actual.values`, `factor_crec_7d = factor.values`, aligned
positionally with the group's rows. -/
def growthGroup (loc : String) (g : List Row) : List GrowthRow :=
  (g.zip ((actualSeries g).zip (factorSeries g))).map
    (fun p => ⟨p.1.date, loc, p.2.1, p.2.2⟩)

/-- `metrica_factor_crec_7d`: concatenate the per-group frames, drop rows
whose `factor_crec_7d` is null, and keep rows with
`0 <= factor_crec_7d <= 10`. -/
def metrica_factor_crec_7d (df : List Row) : List GrowthRow :=
  (((locationsOf df).flatMap (fun loc => growthGroup loc (groupRows loc df))).filter
      (fun r => !(r.factor_crec_7d == FVal.nan))).filter
    (fun r => fge r.factor_crec_7d 0 && fle r.factor_crec_7d 10)

/-- Float addition with the IEEE special values (`inf + -inf = NaN`,
anything with `NaN` is `NaN`). -/
def FVal.add : FVal → FVal → FVal
  | .nan, _ => .nan
  | _, .nan => .nan
  | .inf, .ninf => .nan
  | .ninf, .inf => .nan
  | .inf, _ => .inf
  | _, .inf => .inf
  | .ninf, _ => .ninf
  | _, .ninf => .ninf
  | .val a, .val b => .val (a + b)

/-- Division of a float cell by the window size 7. -/
def FVal.div7 : FVal → FVal
  | .val q => .val (q / 7)
  | v => v

/-- `* 100000` on one cell. -/
def scale100k : FVal → FVal
  | .val q => .val (q * 100000)
  | v => v

/-- `incidencia_diaria = (new_cases / population) * 100000` for one row. -/
def incidencia_diaria (r : Row) : FVal :=
  scale100k (fdiv r.new_cases r.population)

/-- `rolling(7).mean()` over a float column: defined (as window sum divided
by 7) only when the window has seven samples, none of them `NaN`. -/
def rollingMean7 (xs : List FVal) : List FVal :=
  (List.range xs.length).map (fun i =>
    if (win7 xs i).length = 7 ∧ (win7 xs i).all (fun v => !(v == FVal.nan)) then
      FVal.div7 ((win7 xs i).foldl FVal.add (FVal.val 0))
    else FVal.nan)

/-- The `incidencia_7d` series of one group. -/
def incSeries (g : List Row) : List FVal :=
  rollingMean7 (g.map incidencia_diaria)

/-- One row of the incidence output frame. -/
structure IncRow where
  date : Option Int
  location : String
  incidencia_7d : FVal
deriving DecidableEq, Repr, Inhabited

/-- The incidence rows of one group, aligned positionally. -/
def incGroup (loc : String) (g : List Row) : List IncRow :=
  (g.zip (incSeries g)).map (fun p => ⟨p.1.date, loc, p.2⟩)

/-- `metrica_incidencia_7d`: per-group rolling mean on the frame sorted by
`["location", "date"]`, then `[["date","location","incidencia_7d"]].dropna()`
— the subset-free `dropna` also removes rows with a null (`NaT`) date. -/
def metrica_incidencia_7d (df : List Row) : List IncRow :=
  ((locationsOf df).flatMap (fun loc => incGroup loc (groupRows loc df))).filter
    (fun r => r.date.isSome && !(r.incidencia_7d == FVal.nan))

/-- The `dg.AssetCheckResult` of `chequeos_salida_incidencia`: pass flag and
the string-valued metadata entries. -/
structure OutCheck where
  passed : Bool
  metadata : List (String × String)
deriving DecidableEq, Repr, Inhabited

/-- `chequeos_salida_incidencia`: an empty frame fails with only an `error`
metadata field; otherwise pass iff every `incidencia_7d` satisfies
`0 <= · <= 2000`, with row counts in the metadata. -/
def chequeos_salida_incidencia (rows : List IncRow) : OutCheck :=
  if rows.isEmpty then ⟨false, [("error", "DataFrame vacío")]⟩
  else
    let passed := rows.all (fun r => fge r.incidencia_7d 0 && fle r.incidencia_7d 2000)
    ⟨passed,
     [("rango_valido", if passed then "Sí" else "No"),
      ("total_filas", toString rows.length),
      ("fuera_de_rango",
       toString (rows.countP (fun r =>
         !(fge r.incidencia_7d 0 && fle r.incidencia_7d 2000))))]⟩

/-- A one-row frame (a jurisdiction group with a single row). -/
def df1 : List Row := [⟨"Peru", some 0, some 5, some 1, some 1000⟩]

/-- A 14-row Peru group: seven days of zero cases followed by a week summing
to 50 cases, so that at the last row the prior-week window sums to `0` and
the current-week window sums to `50`. -/
def dfC3 : List Row :=
  [⟨"Peru", some 0, some 0, some 1, some 1000⟩,
   ⟨"Peru", some 1, some 0, some 1, some 1000⟩,
   ⟨"Peru", some 2, some 0, some 1, some 1000⟩,
   ⟨"Peru", some 3, some 0, some 1, some 1000⟩,
   ⟨"Peru", some 4, some 0, some 1, some 1000⟩,
   ⟨"Peru", some 5, some 0, some 1, some 1000⟩,
   ⟨"Peru", some 6, some 0, some 1, some 1000⟩,
   ⟨"Peru", some 7, some 50, some 1, some 1000⟩,
   ⟨"Peru", some 8, some 0, some 1, some 1000⟩,
   ⟨"Peru", some 9, some 0, some 1, some 1000⟩,
   ⟨"Peru", some 10, some 0, some 1, some 1000⟩,
   ⟨"Peru", some 11, some 0, some 1, some 1000⟩,
   ⟨"Peru", some 12, some 0, some 1, some 1000⟩,
   ⟨"Peru", some 13, some 0, some 1, some 1000⟩]

/-- `dfC3` plus a three-row Ecuador group (shorter than a week). -/
def dfC1w : List Row :=
  dfC3 ++
    [⟨"Ecuador", some 0, some 1, some 1, some 500⟩,
     ⟨"Ecuador", some 1, some 2, some 1, some 500⟩,
     ⟨"Ecuador", some 2, some 3, some 1, some 500⟩]

/-- A cell satisfies both pandas bound comparisons iff it is an ordinary
value inside the closed interval. -/
theorem fge_and_fle_iff (v : FVal) (a b : ℚ) :
    (fge v a && fle v b) = true ↔ ∃ q, v = FVal.val q ∧ a ≤ q ∧ q ≤ b := by
  cases v <;> simp [fge, fle]

/-- C7: for every gate evaluation, the aggregate Check Result's overall
passed flag equals the conjunction of the passed flags of all its individual
rule results (`passed = bool(all(r["passed"] for r in rules))`). -/
theorem c7_overall_passed_conj (today : Int) (f : Frame) :
    (chequeos_entrada today f).passed =
      (chequeos_entrada today f).rules.all (fun r => r.passed) := rfl

/-- A frame whose schema lacks the `new_cases` column (and nothing else),
with no rows. -/
def fC2 : Frame := ⟨true, true, false, true, []⟩

/-- C2 counterexample: on a frame missing the `new_cases` column, the
`new_cases ≥ 0` rule — which needs that column — reports `passed = true`
(not `false`), and its note is `"OK"`, not
`"rule inapplicable: missing column"`. -/
theorem c2_counterexample :
    fC2.hasNewCases = false ∧
    ((chequeos_entrada 0 fC2).rules.getD 8 default).passed = true ∧
    ((chequeos_entrada 0 fC2).resumen.getD 8 default).notas = "OK" := by
  refine ⟨rfl, by decide, by decide⟩

/-- C2 (amended): a missing column never escapes the gate as a failure —
the gate always returns its full nine-rule result — but the downgrade is not
uniformly `passed=false`: with `new_cases` and `population` both absent, the
`new_cases ≥ 0` rule passes vacuously while the `population > 0` rule fails,
and every note is `"OK"` or `"Continuar con advertencia"`; the note
`"rule inapplicable: missing column"` never occurs. -/
theorem c2_missing_column_downgrade (today : Int) (f : Frame)
    (h1 : f.hasNewCases = false) (h2 : f.hasPopulation = false) :
    (chequeos_entrada today f).rules.length = 9 ∧
    ((chequeos_entrada today f).rules.getD 8 default).passed = true ∧
    ((chequeos_entrada today f).rules.getD 7 default).passed = false ∧
    (chequeos_entrada today f).resumen.all
      (fun row => row.notas == "OK" || row.notas == "Continuar con advertencia") = true := by
  refine ⟨rfl, ?_, ?_, ?_⟩
  · simp [chequeos_entrada, entradaRules, reglaNuevosCasos, h1]
  · simp [chequeos_entrada, entradaRules, reglaPoblacion, h2]
  · have hres : ∀ r : RuleRes,
        ((mkResumen r).notas == "OK" || (mkResumen r).notas == "Continuar con advertencia") = true := by
      intro r
      cases h : r.passed <;> simp [mkResumen, h]
    simp only [chequeos_entrada, List.all_eq_true, List.mem_map]
    rintro x ⟨r, _, rfl⟩
    exact hres r

/-- C2 witness: the amended statement instantiated on `fC2` extended with a
missing `population` column. -/
theorem c2_witness :
    (⟨true, true, false, false, []⟩ : Frame).hasNewCases = false ∧
    (⟨true, true, false, false, []⟩ : Frame).hasPopulation = false ∧
    ((chequeos_entrada 0 ⟨true, true, false, false, []⟩).rules.length = 9 ∧
      ((chequeos_entrada 0 ⟨true, true, false, false, []⟩).rules.getD 8 default).passed = true ∧
      ((chequeos_entrada 0 ⟨true, true, false, false, []⟩).rules.getD 7 default).passed = false ∧
      (chequeos_entrada 0 ⟨true, true, false, false, []⟩).resumen.all
        (fun row => row.notas == "OK" || row.notas == "Continuar con advertencia") = true) :=
  ⟨rfl, rfl, c2_missing_column_downgrade 0 ⟨true, true, false, false, []⟩ rfl rfl⟩

/-- A frame containing a single Peru row and no Ecuador row. -/
def fC9 : Frame := ⟨true, true, true, true, [⟨"Peru", some 0, some 1, some 1, some 1⟩]⟩

/-- C9 counterexample: the jurisdiction rule passes on a frame that has a
Peru row but no Ecuador row at all, refuting "passes only when both target
jurisdictions are present". -/
theorem c9_counterexample :
    ((chequeos_entrada 0 fC9).rules.getD 4 default).passed = true ∧
    fC9.rows.all (fun r => !(normLoc r.location == "Ecuador")) = true := by
  refine ⟨by decide, by decide⟩

/-- C9 (amended): the `datos de Perú o Ecuador presentes` rule passes iff the
`location` column is present and at least one row's normalized location is
Peru **or** Ecuador (`isin(...).any()`): one jurisdiction suffices. -/
theorem c9_paises_rule_any (today : Int) (f : Frame) :
    ((chequeos_entrada today f).rules.getD 4 default).passed =
      (f.hasLocation &&
        f.rows.any (fun r => PERU_ECUADOR.contains (normLoc r.location))) := by
  cases h : f.hasLocation <;>
    simp [chequeos_entrada, entradaRules, reglaPaises, h]

/-- C8 counterexample: on an empty incidence frame the returned metadata has
no `fuera_de_rango` and no `total_filas` entry at all (so neither equals
`0`): the only entry is `error`. -/
theorem c8_counterexample :
    (chequeos_salida_incidencia []).metadata.lookup "fuera_de_rango" = none ∧
    (chequeos_salida_incidencia []).metadata.lookup "total_filas" = none := by
  refine ⟨by decide, by decide⟩

/-- C8 (amended): an empty incidence frame makes the output gate return
`overall_passed = false` with metadata consisting of the single entry
`error = "DataFrame vacío"`; the `fuera_de_rango` / `total_filas` counters
are not reported in this case, and the failure is signalled only through the
check result. -/
theorem c8_empty_gate :
    (chequeos_salida_incidencia []).passed = false ∧
    (chequeos_salida_incidencia []).metadata = [("error", "DataFrame vacío")] := by
  refine ⟨rfl, rfl⟩

/-- C10: on a non-empty incidence frame the output gate passes iff every
row's `incidencia_7d` is an ordinary value in `[0, 2000]`, and the
`fuera_de_rango` metadata holds the count of rows outside that range (the
bound `2000` is enforced by the code although the spec states it nowhere). -/
theorem c10_salida_range (rows : List IncRow) (h : rows.isEmpty = false) :
    ((chequeos_salida_incidencia rows).passed = true ↔
      ∀ r ∈ rows, ∃ q, r.incidencia_7d = FVal.val q ∧ 0 ≤ q ∧ q ≤ 2000) ∧
    (chequeos_salida_incidencia rows).metadata.lookup "fuera_de_rango" =
      some (toString (rows.countP
        (fun r => !(fge r.incidencia_7d 0 && fle r.incidencia_7d 2000)))) := by
  constructor
  · simp only [chequeos_salida_incidencia, h, Bool.false_eq_true, if_false,
      List.all_eq_true]
    constructor
    · intro hall r hr
      exact (fge_and_fle_iff _ 0 2000).mp (hall r hr)
    · intro hall r hr
      exact (fge_and_fle_iff _ 0 2000).mpr (hall r hr)
  · simp [chequeos_salida_incidencia, h, List.lookup]

/-- C10 witness: a one-row in-range frame. -/
theorem c10_witness :
    ([⟨some 0, "Peru", FVal.val 5⟩] : List IncRow).isEmpty = false ∧
    ((chequeos_salida_incidencia [⟨some 0, "Peru", FVal.val 5⟩]).passed = true ↔
      ∀ r ∈ ([⟨some 0, "Peru", FVal.val 5⟩] : List IncRow),
        ∃ q, r.incidencia_7d = FVal.val q ∧ 0 ≤ q ∧ q ≤ 2000) ∧
    (chequeos_salida_incidencia [⟨some 0, "Peru", FVal.val 5⟩]).metadata.lookup
        "fuera_de_rango" =
      some (toString (([⟨some 0, "Peru", FVal.val 5⟩] : List IncRow).countP
        (fun r => !(fge r.incidencia_7d 0 && fle r.incidencia_7d 2000)))) :=
  ⟨rfl, c10_salida_range [⟨some 0, "Peru", FVal.val 5⟩] rfl⟩

/-- C4: every row of the growth-factor output has an ordinary
`factor_crec_7d` value inside `[0, 10]` — the final range filter is a hard
invariant of the output. -/
theorem c4_growth_range (df : List Row) :
    ∀ r ∈ metrica_factor_crec_7d df,
      ∃ q, r.factor_crec_7d = FVal.val q ∧ 0 ≤ q ∧ q ≤ 10 := by
  intro r hr
  have := (List.mem_filter.mp hr).2
  exact (fge_and_fle_iff _ 0 10).mp this

unseal Rat.add Rat.mul Rat.inv in
/-- C4 witness: the single output row of the one-row frame `df1` is in
range. -/
theorem c4_witness :
    (⟨some 0, "Peru", none, FVal.val 0⟩ : GrowthRow) ∈ metrica_factor_crec_7d df1 ∧
    (∃ q, (⟨some 0, "Peru", none, FVal.val 0⟩ : GrowthRow).factor_crec_7d = FVal.val q ∧
      0 ≤ q ∧ q ≤ 10) :=
  ⟨by decide, c4_growth_range df1 ⟨some 0, "Peru", none, FVal.val 0⟩ (by decide)⟩

/-- Every row kept by the dedup comes from the input list. -/
theorem mem_dropDupKeepLast {r : Row} {l : List Row} (h : r ∈ dropDupKeepLast l) :
    r ∈ l := by
  induction l with
  | nil => simp [dropDupKeepLast] at h
  | cons s ss ih =>
    by_cases hdup : (ss.any fun x => decide (rkey x = rkey s)) = true
    · simp only [dropDupKeepLast, hdup, if_true] at h
      exact List.mem_cons_of_mem s (ih h)
    · simp only [dropDupKeepLast, hdup, if_false, Bool.false_eq_true,
        List.mem_cons] at h
      rcases h with h | h
      · exact h ▸ List.mem_cons_self s ss
      · exact List.mem_cons_of_mem s (ih h)

/-- A list has no marked duplicate key iff its keys are pairwise distinct. -/
theorem hasDupKey_eq_false_iff (l : List Row) :
    hasDupKey l = false ↔ (l.map rkey).Nodup := by
  induction l with
  | nil => simp [hasDupKey]
  | cons r rs ih =>
    simp only [hasDupKey, Bool.or_eq_false_iff, List.map_cons, List.nodup_cons,
      ih, List.any_eq_false, decide_eq_true_eq, List.mem_map]
    constructor
    · rintro ⟨h1, h2⟩
      refine ⟨?_, h2⟩
      rintro ⟨s, hs, hk⟩
      exact h1 s hs hk
    · rintro ⟨h1, h2⟩
      exact ⟨fun s hs hk => h1 ⟨s, hs, hk⟩, h2⟩

/-- The keys of the dedup output are pairwise distinct. -/
theorem nodup_keys_dropDupKeepLast (l : List Row) :
    ((dropDupKeepLast l).map rkey).Nodup := by
  induction l with
  | nil => simp [dropDupKeepLast]
  | cons r rs ih =>
    by_cases hdup : (rs.any fun x => decide (rkey x = rkey r)) = true
    · simpa [dropDupKeepLast, hdup] using ih
    · have h' : ∀ s ∈ rs, ¬rkey s = rkey r := by
        simp only [Bool.not_eq_true, List.any_eq_false, decide_eq_true_eq] at hdup
        exact hdup
      simp only [dropDupKeepLast, hdup, if_false, Bool.false_eq_true,
        List.map_cons, List.nodup_cons]
      refine ⟨?_, ih⟩
      rintro hmem
      rcases List.mem_map.mp hmem with ⟨s, hs, hk⟩
      exact h' s (mem_dropDupKeepLast hs) hk

/-- Dedup is the identity on a list without duplicate keys. -/
theorem dropDupKeepLast_of_no_dup {l : List Row} (h : hasDupKey l = false) :
    dropDupKeepLast l = l := by
  induction l with
  | nil => rfl
  | cons r rs ih =>
    simp only [hasDupKey, Bool.or_eq_false_iff] at h
    simp [dropDupKeepLast, h.1, ih h.2]

/-- `datos_procesados` always equals filter + dropna + dedup-keep-last (the
source's guarding `if duplicated().any()` is semantically redundant). -/
theorem datos_procesados_eq (df : List Row) :
    datos_procesados df = dropDupKeepLast (filtrado df) := by
  by_cases h : hasDupKey (filtrado df) = true
  · simp [datos_procesados, h]
  · have h' : hasDupKey (filtrado df) = false := by simpa using h
    simp [datos_procesados, h', dropDupKeepLast_of_no_dup h']

/-- Restricting the dedup output to one key yields exactly the last
occurrence of that key in the input (in source order), if any. -/
theorem filter_key_dropDupKeepLast (l : List Row) (k : String × Option Int) :
    (dropDupKeepLast l).filter (fun r => decide (rkey r = k)) =
      ((l.filter (fun r => decide (rkey r = k))).getLast?).toList := by
  induction l with
  | nil => simp [dropDupKeepLast]
  | cons r rs ih =>
    by_cases hdup : (rs.any fun x => decide (rkey x = rkey r)) = true
    · rw [show dropDupKeepLast (r :: rs) = dropDupKeepLast rs by
        simp [dropDupKeepLast, hdup]]
      rw [ih]
      by_cases hk : rkey r = k
      · rw [List.filter_cons_of_pos (by simpa using hk)]
        have hne : rs.filter (fun x => decide (rkey x = k)) ≠ [] := by
          rcases List.any_eq_true.mp hdup with ⟨s, hs, hsk⟩
          have : s ∈ rs.filter (fun x => decide (rkey x = k)) := by
            refine List.mem_filter.mpr ⟨hs, ?_⟩
            simp only [decide_eq_true_eq] at hsk ⊢
            rw [hsk, hk]
          exact List.ne_nil_of_mem this
        rcases List.exists_cons_of_ne_nil hne with ⟨c, cs, hcs⟩
        rw [hcs, List.getLast?_cons_cons]
      · rw [List.filter_cons_of_neg (by simpa using hk)]
    · have h' : ∀ s ∈ rs, ¬rkey s = rkey r := by
        simpa [List.any_eq_false] using hdup
      rw [show dropDupKeepLast (r :: rs) = r :: dropDupKeepLast rs by
        simp [dropDupKeepLast, hdup]]
      by_cases hk : rkey r = k
      · have hnil : rs.filter (fun x => decide (rkey x = k)) = [] := by
          rw [List.filter_eq_nil_iff]
          intro s hs
          simp only [decide_eq_true_eq]
          intro hsk
          exact h' s hs (hsk.trans hk.symm)
        have hnil' : (dropDupKeepLast rs).filter (fun x => decide (rkey x = k)) = [] := by
          rw [ih, hnil]
          rfl
        rw [List.filter_cons_of_pos (by simpa using hk), hnil',
          List.filter_cons_of_pos (by simpa using hk), hnil]
        rfl
      · rw [List.filter_cons_of_neg (by simpa using hk),
          List.filter_cons_of_neg (by simpa using hk), ih]

/-- C5: the Normalizer's output has pairwise-distinct `(location, date)`
keys, every row is in the configured jurisdiction set with non-null
`new_cases` and `people_vaccinated`, and for every key the retained row is
exactly the last surviving occurrence of that key in source order. -/
theorem c5_normalizer_shape (df : List Row) :
    ((datos_procesados df).map rkey).Nodup ∧
    (datos_procesados df).all
      (fun r => PERU_ECUADOR.contains r.location &&
        (r.new_cases.isSome && r.people_vaccinated.isSome)) = true ∧
    ∀ k, (datos_procesados df).filter (fun r => decide (rkey r = k)) =
      (((filtrado df).filter (fun r => decide (rkey r = k))).getLast?).toList := by
  refine ⟨?_, ?_, ?_⟩
  · rw [datos_procesados_eq]
    exact nodup_keys_dropDupKeepLast _
  · rw [List.all_eq_true]
    intro r hr
    rw [datos_procesados_eq] at hr
    have hr' := mem_dropDupKeepLast hr
    have h2 := (List.mem_filter.mp hr').2
    have h1 := (List.mem_filter.mp (List.mem_filter.mp hr').1).2
    simp only [keepRow] at h1
    simp only [dropnaRow] at h2
    rw [h1, h2]
    rfl
  · intro k
    rw [datos_procesados_eq]
    exact filter_key_dropDupKeepLast _ k

/-- A list that is already filtered, non-null and key-distinct is a fixed
point of `datos_procesados`. -/
theorem datos_procesados_fixed {l : List Row} (h1 : filtrado l = l)
    (h2 : hasDupKey l = false) : datos_procesados l = l := by
  simp [datos_procesados, h1, h2]

/-- C6: the Normalizer is idempotent — applying `datos_procesados` to its
own output returns it unchanged (no row dropped, added or reordered). -/
theorem c6_normalize_idempotent (df : List Row) :
    datos_procesados (datos_procesados df) = datos_procesados df := by
  have hmem : ∀ r ∈ datos_procesados df, keepRow r = true ∧ dropnaRow r = true := by
    intro r hr
    rw [datos_procesados_eq] at hr
    have hr' := mem_dropDupKeepLast hr
    exact ⟨(List.mem_filter.mp (List.mem_filter.mp hr').1).2,
      (List.mem_filter.mp hr').2⟩
  have h1 : filtrado (datos_procesados df) = datos_procesados df := by
    unfold filtrado
    rw [List.filter_eq_self.mpr (fun r hr => (hmem r hr).1),
      List.filter_eq_self.mpr (fun r hr => (hmem r hr).2)]
  have h2 : hasDupKey (datos_procesados df) = false := by
    rw [hasDupKey_eq_false_iff, datos_procesados_eq]
    exact nodup_keys_dropDupKeepLast _
  exact datos_procesados_fixed h1 h2

/-- The trailing window ending inside the list has width `min (i+1) 7`. -/
theorem win7_length {α : Type} (xs : List α) (i : Nat) (h : i < xs.length) :
    (win7 xs i).length = min (i + 1) 7 := by
  simp only [win7, List.length_drop, List.length_take]
  omega

theorem rolling7sum_length (xs : List (Option ℚ)) :
    (rolling7sum xs).length = xs.length := by
  simp [rolling7sum]

theorem rollingMean7_length (xs : List FVal) :
    (rollingMean7 xs).length = xs.length := by
  simp [rollingMean7]

theorem shift7_length (xs : List (Option ℚ)) :
    (shift7 xs).length = xs.length := by
  simp only [shift7, List.length_take, List.length_append, List.length_replicate]
  omega

theorem actualSeries_length (g : List Row) :
    (actualSeries g).length = g.length := by
  simp [actualSeries, rolling7sum_length]

theorem previaSeries_length (g : List Row) :
    (previaSeries g).length = g.length := by
  simp [previaSeries, rolling7sum_length, shift7_length]

theorem factorSeries_length (g : List Row) :
    (factorSeries g).length = g.length := by
  simp [factorSeries, actualSeries_length, previaSeries_length]

/-- On fewer than seven samples every rolling sum is undefined. -/
theorem rolling7sum_short {xs : List (Option ℚ)} (h : xs.length < 7) :
    rolling7sum xs = List.replicate xs.length none := by
  rw [List.eq_replicate_iff]
  refine ⟨rolling7sum_length xs, ?_⟩
  intro b hb
  rw [rolling7sum] at hb
  rcases List.mem_map.mp hb with ⟨i, hi, hfb⟩
  have hi' : i < xs.length := List.mem_range.mp hi
  rw [← hfb, if_neg]
  rintro ⟨h7, -⟩
  rw [win7_length xs i hi'] at h7
  omega

/-- On fewer than seven samples every rolling mean is undefined. -/
theorem rollingMean7_short {xs : List FVal} (h : xs.length < 7) :
    rollingMean7 xs = List.replicate xs.length FVal.nan := by
  rw [List.eq_replicate_iff]
  refine ⟨rollingMean7_length xs, ?_⟩
  intro b hb
  rw [rollingMean7] at hb
  rcases List.mem_map.mp hb with ⟨i, hi, hfb⟩
  have hi' : i < xs.length := List.mem_range.mp hi
  rw [← hfb, if_neg]
  rintro ⟨h7, -⟩
  rw [win7_length xs i hi'] at h7
  omega

/-- For a group with fewer than seven rows the current-week sums are all
undefined. -/
theorem actualSeries_short {g : List Row} (h : g.length < 7) :
    actualSeries g = List.replicate g.length none := by
  rw [actualSeries, rolling7sum_short (by simpa using h)]
  simp

/-- For a group with fewer than seven rows the prior-week sums are all
undefined. -/
theorem previaSeries_short {g : List Row} (h : g.length < 7) :
    previaSeries g = List.replicate g.length none := by
  rw [previaSeries, rolling7sum_short (by simp [shift7_length]; omega)]
  simp [shift7_length]

theorem zipWith_fdiv_replicate (n : Nat) :
    List.zipWith fdiv (List.replicate n none) (List.replicate n none) =
      List.replicate n FVal.nan := by
  induction n with
  | zero => rfl
  | succ m ih => simp [List.replicate_succ, ih, fdiv]

/-- For a group with fewer than seven rows every factor cell is the
`fillna(0)` of `NaN`, i.e. the ordinary value `0`. -/
theorem factorSeries_short {g : List Row} (h : g.length < 7) :
    factorSeries g = List.replicate g.length (FVal.val 0) := by
  rw [factorSeries, actualSeries_short h, previaSeries_short h,
    zipWith_fdiv_replicate, List.map_replicate]
  rfl

theorem zip_replicate_pair {β γ : Type} (b : β) (c : γ) (n : Nat) :
    (List.replicate n b).zip (List.replicate n c) = List.replicate n (b, c) := by
  induction n with
  | zero => rfl
  | succ m ih => simp [List.replicate_succ, ih]

theorem zip_replicate_map {α β γ : Type} (g : List α) (c : β) (F : α × β → γ) :
    ((g.zip (List.replicate g.length c)).map F) = g.map (fun r => F (r, c)) := by
  induction g with
  | nil => rfl
  | cons r rs ih => simpa [List.replicate_succ] using ih

/-- For a group with fewer than seven rows the `tmp` frame pairs each group
row with an undefined `casos_semana` and a zero factor. -/
theorem growthGroup_short {g : List Row} (loc : String) (h : g.length < 7) :
    growthGroup loc g =
      g.map (fun r => ⟨r.date, loc, none, FVal.val 0⟩) := by
  rw [growthGroup, actualSeries_short h, factorSeries_short h,
    zip_replicate_pair, zip_replicate_map]

/-- For a group with fewer than seven rows every incidence cell is `NaN`. -/
theorem incSeries_short {g : List Row} (h : g.length < 7) :
    incSeries g = List.replicate g.length FVal.nan := by
  rw [incSeries, rollingMean7_short (by simpa using h)]
  simp

theorem mem_insRow {a r : Row} {l : List Row} :
    a ∈ insRow r l ↔ a = r ∨ a ∈ l := by
  induction l with
  | nil => simp [insRow]
  | cons s ss ih =>
    by_cases h : dlt s.date r.date = true
    · simp only [insRow, h, if_true, List.mem_cons, ih]
      tauto
    · simp [insRow, h]

theorem mem_sortByDate {a : Row} {l : List Row} :
    a ∈ sortByDate l ↔ a ∈ l := by
  induction l with
  | nil => simp [sortByDate]
  | cons s ss ih =>
    simp only [sortByDate, List.foldr_cons, List.mem_cons]
    rw [show List.foldr insRow [] ss = sortByDate ss from rfl] at *
    rw [mem_insRow, ih]

theorem sortByDate_length (l : List Row) :
    (sortByDate l).length = l.length := by
  have hins : ∀ (r : Row) (m : List Row), (insRow r m).length = m.length + 1 := by
    intro r m
    induction m with
    | nil => rfl
    | cons s ss ih =>
      by_cases h : dlt s.date r.date = true
      · simp [insRow, h, ih]
      · simp [insRow, h]
  induction l with
  | nil => rfl
  | cons s ss ih => simp [sortByDate, List.foldr_cons] at ih ⊢; rw [hins, ih]

theorem mem_insLoc {a x : String} {l : List String} :
    a ∈ insLoc x l ↔ a = x ∨ a ∈ l := by
  induction l with
  | nil => simp [insLoc]
  | cons y ys ih =>
    by_cases h : locLt y x = true
    · simp only [insLoc, h, if_true, List.mem_cons, ih]
      tauto
    · simp [insLoc, h]

theorem mem_sortLocs {a : String} {l : List String} :
    a ∈ sortLocs l ↔ a ∈ l := by
  induction l with
  | nil => simp [sortLocs]
  | cons y ys ih =>
    simp only [sortLocs, List.foldr_cons, List.mem_cons]
    rw [show List.foldr insLoc [] ys = sortLocs ys from rfl] at *
    rw [mem_insLoc, ih]

theorem nodup_insLoc {x : String} {l : List String} (hl : l.Nodup)
    (hx : x ∉ l) : (insLoc x l).Nodup := by
  induction l with
  | nil => simp [insLoc]
  | cons y ys ih =>
    rcases List.nodup_cons.mp hl with ⟨hy, hys⟩
    have hxy : x ≠ y := fun h => hx (h ▸ List.mem_cons_self y ys)
    have hxys : x ∉ ys := fun h => hx (List.mem_cons_of_mem y h)
    by_cases h : locLt y x = true
    · simp only [insLoc, h, if_true, List.nodup_cons]
      refine ⟨?_, ih hys hxys⟩
      rw [mem_insLoc]
      rintro (rfl | hmem)
      · exact hxy rfl
      · exact hy hmem
    · have hins : insLoc x (y :: ys) = x :: y :: ys := by
        simp [insLoc, h]
      rw [hins, List.nodup_cons]
      refine ⟨?_, hl⟩
      rw [List.mem_cons]
      rintro (rfl | hmem)
      · exact hxy rfl
      · exact hxys hmem

theorem nodup_sortLocs {l : List String} (hl : l.Nodup) :
    (sortLocs l).Nodup := by
  induction l with
  | nil => simp [sortLocs]
  | cons y ys ih =>
    rcases List.nodup_cons.mp hl with ⟨hy, hys⟩
    simp only [sortLocs, List.foldr_cons]
    rw [show List.foldr insLoc [] ys = sortLocs ys from rfl]
    exact nodup_insLoc (ih hys) (fun h => hy (mem_sortLocs.mp h))

/-- The group keys are pairwise distinct. -/
theorem nodup_locationsOf (df : List Row) : (locationsOf df).Nodup :=
  nodup_sortLocs (List.nodup_dedup _)

/-- A name is a group key iff some row carries it. -/
theorem mem_locationsOf {loc : String} {df : List Row} :
    loc ∈ locationsOf df ↔ loc ∈ df.map (fun r => r.location) := by
  rw [locationsOf, mem_sortLocs, List.mem_dedup]

/-- Every row of the group of `loc` carries location `loc`. -/
theorem groupRows_location {loc : String} {df : List Row} {r : Row}
    (h : r ∈ groupRows loc df) : r.location = loc := by
  rw [groupRows, mem_sortByDate] at h
  have := (List.mem_filter.mp h).2
  simpa using this

/-- The group of `loc` is empty iff no row carries location `loc`. -/
theorem groupRows_eq_nil_iff {loc : String} {df : List Row} :
    groupRows loc df = [] ↔ loc ∉ df.map (fun r => r.location) := by
  constructor
  · intro h hmem
    rcases List.mem_map.mp hmem with ⟨r, hr, hrl⟩
    have : r ∈ groupRows loc df := by
      rw [groupRows, mem_sortByDate]
      exact List.mem_filter.mpr ⟨hr, by simpa using hrl⟩
    rw [h] at this
    cases this
  · intro hmem
    have : df.filter (fun r => r.location == loc) = [] := by
      rw [List.filter_eq_nil_iff]
      intro r hr hl
      exact hmem (List.mem_map.mpr ⟨r, hr, by simpa using hl⟩)
    rw [groupRows, this]
    rfl

/-- Every row of a per-group growth frame carries the group's location. -/
theorem growthGroup_mem_location {loc : String} {g : List Row} {r : GrowthRow}
    (h : r ∈ growthGroup loc g) : r.location = loc := by
  rcases List.mem_map.mp h with ⟨p, -, rfl⟩
  rfl

/-- Every row of a per-group incidence frame carries the group's location. -/
theorem incGroup_mem_location {loc : String} {g : List Row} {r : IncRow}
    (h : r ∈ incGroup loc g) : r.location = loc := by
  rcases List.mem_map.mp h with ⟨p, -, rfl⟩
  rfl

/-- Every row of a per-group incidence frame carries a cell of the group's
incidence series. -/
theorem incGroup_mem_val {loc : String} {g : List Row} {r : IncRow}
    (h : r ∈ incGroup loc g) : r.incidencia_7d ∈ incSeries g := by
  rcases List.mem_map.mp h with ⟨p, hp, rfl⟩
  rcases p with ⟨a, b⟩
  exact (List.of_mem_zip hp).2

theorem filter_flatMap {α β : Type} (l : List α) (f : α → List β) (p : β → Bool) :
    (l.flatMap f).filter p = l.flatMap (fun a => (f a).filter p) := by
  induction l with
  | nil => rfl
  | cons x xs ih => simp [List.flatMap_cons, List.filter_append, ih]

theorem flatMap_eq_single {α β : Type} {l : List α} {f : α → List β} {a : α}
    (hnd : l.Nodup) (ha : a ∈ l) (h0 : ∀ b ∈ l, b ≠ a → f b = []) :
    l.flatMap f = f a := by
  induction l with
  | nil => cases ha
  | cons x xs ih =>
    rcases List.nodup_cons.mp hnd with ⟨hx, hxs⟩
    rcases List.mem_cons.mp ha with rfl | hmem
    · have hrest : xs.flatMap f = [] := by
        rw [List.flatMap_eq_nil_iff]
        intro b hb
        exact h0 b (List.mem_cons_of_mem a hb) (fun hba => hx (hba ▸ hb))
      simp [List.flatMap_cons, hrest]
    · have hxa : x ≠ a := fun h => hx (h ▸ hmem)
      have hx0 : f x = [] := h0 x (List.mem_cons_self x xs) hxa
      simp only [List.flatMap_cons, hx0, List.nil_append]
      exact ih hxs hmem (fun b hb => h0 b (List.mem_cons_of_mem x hb))

/-- C1 (amended): a jurisdiction group with fewer than 7 rows contributes no
incidence rows, but — contrary to the original claim — it contributes one
growth row per group row: the undefined factor cells are filled with `0` by
`fillna(0)`, pass the `[0, 10]` filter, and are emitted with a null
`casos_semana`.  Growth rows therefore exist at `(location, date)` pairs
whose trailing windows are not fully populated. -/
theorem c1_short_group (df : List Row) (loc : String)
    (h : (groupRows loc df).length < 7) :
    (metrica_incidencia_7d df).filter (fun r => r.location == loc) = [] ∧
    (metrica_factor_crec_7d df).filter (fun r => r.location == loc) =
      (groupRows loc df).map (fun r => ⟨r.date, loc, none, FVal.val 0⟩) := by
  constructor
  · simp only [metrica_incidencia_7d]
    rw [List.filter_filter, filter_flatMap, List.flatMap_eq_nil_iff]
    intro L hL
    rw [List.filter_eq_nil_iff]
    intro r hr hcomb
    have hrl : r.location = L := incGroup_mem_location hr
    simp only [Bool.and_eq_true, beq_iff_eq] at hcomb
    by_cases hLl : L = loc
    · subst hLl
      have hval := incGroup_mem_val hr
      rw [incSeries_short h] at hval
      have : r.incidencia_7d = FVal.nan := (List.mem_replicate.mp hval).2
      rw [this] at hcomb
      simp at hcomb
    · exact hLl (hrl ▸ hcomb.1)
  · simp only [metrica_factor_crec_7d]
    rw [List.filter_filter, List.filter_filter, filter_flatMap]
    have h0 : ∀ L ∈ locationsOf df, L ≠ loc →
        (growthGroup L (groupRows L df)).filter
          (fun r => (r.location == loc) &&
            (fge r.factor_crec_7d 0 && fle r.factor_crec_7d 10) &&
            !(r.factor_crec_7d == FVal.nan)) = [] := by
      intro L _ hLl
      rw [List.filter_eq_nil_iff]
      intro r hr hcomb
      have hrl : r.location = L := growthGroup_mem_location hr
      simp only [Bool.and_eq_true, beq_iff_eq] at hcomb
      exact hLl (hrl ▸ hcomb.1.1)
    by_cases hmem : loc ∈ locationsOf df
    · rw [flatMap_eq_single (nodup_locationsOf df) hmem h0]
      rw [growthGroup_short loc h]
      rw [List.filter_eq_self.mpr]
      intro r hr
      rcases List.mem_map.mp hr with ⟨s, -, rfl⟩
      simp [fge, fle]
    · have hall : ∀ L ∈ locationsOf df, L ≠ loc := fun L hL hEq => hmem (hEq ▸ hL)
      rw [List.flatMap_eq_nil_iff.mpr (fun L hL => h0 L hL (hall L hL))]
      rw [groupRows_eq_nil_iff.mpr (fun hc => hmem (mem_locationsOf.mpr hc))]
      rfl

unseal Rat.add Rat.mul Rat.inv in
/-- C1 counterexample: a jurisdiction group with a single row (fewer than 7)
nevertheless yields one growth output row — with `factor_crec_7d = 0` and
null `casos_semana` — refuting "zero growth rows for that group" and "a
growth row exists only when both trailing windows are fully populated". -/
theorem c1_counterexample :
    (groupRows "Peru" df1).length = 1 ∧
    metrica_factor_crec_7d df1 = [⟨some 0, "Peru", none, FVal.val 0⟩] := by
  refine ⟨by decide, by decide⟩

unseal Rat.add Rat.mul Rat.inv in
/-- C1 witness: the amended statement applied to the three-row Ecuador group
of `dfC1w`. -/
theorem c1_witness :
    (groupRows "Ecuador" dfC1w).length < 7 ∧
    ((metrica_incidencia_7d dfC1w).filter (fun r => r.location == "Ecuador") = [] ∧
      (metrica_factor_crec_7d dfC1w).filter (fun r => r.location == "Ecuador") =
        (groupRows "Ecuador" dfC1w).map
          (fun r => ⟨r.date, "Ecuador", none, FVal.val 0⟩)) :=
  ⟨by decide, c1_short_group dfC1w "Ecuador" (by decide)⟩

theorem getD_map {α β : Type} (f : α → β) (l : List α) (i : Nat)
    (h : i < l.length) (d : α) : (l.map f).getD i (f d) = f (l.getD i d) := by
  induction l generalizing i with
  | nil => cases h
  | cons x xs ih =>
    cases i with
    | zero => rfl
    | succ n => exact ih n (by simpa using h)

theorem getD_zipWith {α β γ : Type} (f : α → β → γ) (l1 : List α)
    (l2 : List β) (i : Nat) (h1 : i < l1.length) (h2 : i < l2.length)
    (d1 : α) (d2 : β) :
    (List.zipWith f l1 l2).getD i (f d1 d2) = f (l1.getD i d1) (l2.getD i d2) := by
  induction l1 generalizing l2 i with
  | nil => cases h1
  | cons x xs ih =>
    cases l2 with
    | nil => cases h2
    | cons y ys =>
      cases i with
      | zero => rfl
      | succ n => exact ih ys n (by simpa using h1) (by simpa using h2)

theorem getD_mem {α : Type} {l : List α} {i : Nat} (h : i < l.length) (d : α) :
    l.getD i d ∈ l := by
  rw [List.getD_eq_getElem l d h]
  exact List.getElem_mem h

theorem growthGroup_length (loc : String) (g : List Row) :
    (growthGroup loc g).length = g.length := by
  simp [growthGroup, List.length_zip, actualSeries_length, factorSeries_length]

/-- C3: at any group position whose current-week sum is `50` and whose
prior-week sum is `0`, the raw ratio is infinite, is mapped to null by the
`replace`, the null is filled with `0`, and the row is retained in the final
growth output with `factor_crec_7d = 0` and `casos_semana = 50`. -/
theorem c3_inf_ratio_retained (df : List Row) (loc : String) (i : Nat)
    (hi : i < (groupRows loc df).length)
    (ha : (actualSeries (groupRows loc df)).getD i none = some 50)
    (hp : (previaSeries (groupRows loc df)).getD i none = some 0) :
    fdiv (some 50) (some 0) = FVal.inf ∧
    fillna0 (replaceInf FVal.inf) = FVal.val 0 ∧
    (⟨((groupRows loc df).getD i default).date, loc, some 50, FVal.val 0⟩ : GrowthRow) ∈
      metrica_factor_crec_7d df := by
  have h1 : i < (actualSeries (groupRows loc df)).length := by
    rw [actualSeries_length]; exact hi
  have h2 : i < (previaSeries (groupRows loc df)).length := by
    rw [previaSeries_length]; exact hi
  have hzlen : i <
      (List.zipWith fdiv (actualSeries (groupRows loc df))
        (previaSeries (groupRows loc df))).length := by
    rw [List.length_zipWith]
    omega
  have hflen : i < (factorSeries (groupRows loc df)).length := by
    rw [factorSeries_length]; exact hi
  have hzip : (List.zipWith fdiv (actualSeries (groupRows loc df))
      (previaSeries (groupRows loc df))).getD i (fdiv none none) =
      fdiv (some 50) (some 0) := by
    rw [getD_zipWith fdiv _ _ i h1 h2 none none, ha, hp]
  have hfac : (factorSeries (groupRows loc df)).getD i
      (fillna0 (replaceInf (fdiv none none))) = FVal.val 0 := by
    rw [factorSeries, getD_map (fun v => fillna0 (replaceInf v)) _ i hzlen
      (fdiv none none), hzip]
    norm_num [fdiv, replaceInf, fillna0]
  have hAFlen : i <
      ((actualSeries (groupRows loc df)).zip (factorSeries (groupRows loc df))).length := by
    rw [List.length_zip]
    omega
  have hAF : ((actualSeries (groupRows loc df)).zip
      (factorSeries (groupRows loc df))).getD i
      (none, fillna0 (replaceInf (fdiv none none))) = (some 50, FVal.val 0) := by
    rw [List.zip_eq_zipWith, getD_zipWith Prod.mk _ _ i h1 hflen none
      (fillna0 (replaceInf (fdiv none none))), ha, hfac]
  have hglen : i < (growthGroup loc (groupRows loc df)).length := by
    rw [growthGroup_length]; exact hi
  have hrow : (growthGroup loc (groupRows loc df)).getD i
      (⟨(default : Row).date, loc, none, fillna0 (replaceInf (fdiv none none))⟩) =
      ⟨((groupRows loc df).getD i default).date, loc, some 50, FVal.val 0⟩ := by
    rw [growthGroup, getD_map (fun p => (⟨p.1.date, loc, p.2.1, p.2.2⟩ : GrowthRow)) _ i
      (by rw [List.length_zip]; omega)
      ((default : Row), (none, fillna0 (replaceInf (fdiv none none)))),
      List.zip_eq_zipWith, getD_zipWith Prod.mk _ _ i hi hAFlen (default : Row)
      (none, fillna0 (replaceInf (fdiv none none)))]
    rw [hAF]
  have hmem1 : (⟨((groupRows loc df).getD i default).date, loc, some 50,
      FVal.val 0⟩ : GrowthRow) ∈ growthGroup loc (groupRows loc df) := by
    rw [← hrow]
    exact getD_mem hglen _
  have hLoc : loc ∈ locationsOf df := by
    rw [mem_locationsOf]
    by_contra hc
    rw [← groupRows_eq_nil_iff] at hc
    rw [hc] at hi
    simp at hi
  refine ⟨by norm_num [fdiv], rfl, ?_⟩
  rw [metrica_factor_crec_7d]
  refine List.mem_filter.mpr ⟨List.mem_filter.mpr ⟨List.mem_flatMap.mpr
    ⟨loc, hLoc, hmem1⟩, by simp⟩, by simp [fge, fle]⟩

unseal Rat.add Rat.mul Rat.inv in
/-- C3 witness: in the 14-row Peru group of `dfC3`, position 13 has
`casos_semana = 50` and `previa = 0`, and the corresponding row is in the
final output with factor `0`. -/
theorem c3_witness :
    13 < (groupRows "Peru" dfC3).length ∧
    (actualSeries (groupRows "Peru" dfC3)).getD 13 none = some 50 ∧
    (previaSeries (groupRows "Peru" dfC3)).getD 13 none = some 0 ∧
    (⟨((groupRows "Peru" dfC3).getD 13 default).date, "Peru", some 50,
      FVal.val 0⟩ : GrowthRow) ∈ metrica_factor_crec_7d dfC3 :=
  ⟨by decide, by decide, by decide,
    (c3_inf_ratio_retained dfC3 "Peru" 13 (by decide) (by decide) (by decide)).2.2⟩

/-- A raw frame with a repeated `("Ecuador", day 100)` key, a
non-jurisdiction row and a row with a null measurement. -/
def dfC5 : List Row :=
  [⟨"Ecuador", some 100, some 1, some 1, some 17000000⟩,
   ⟨"Peru", some 100, some 2, some 1, some 33000000⟩,
   ⟨"Ecuador", some 100, some 3, some 1, some 17000000⟩,
   ⟨"Spain", some 100, some 4, some 1, some 47000000⟩,
   ⟨"Ecuador", some 101, none, some 1, some 17000000⟩]

/-- C5 witness: the Normalizer shape theorem applied to `dfC5`, reading off
the retained row for the duplicated `("Ecuador", day 100)` key. -/
theorem c5_witness :
    ((datos_procesados dfC5).map rkey).Nodup ∧
    (datos_procesados dfC5).all
      (fun r => PERU_ECUADOR.contains r.location &&
        (r.new_cases.isSome && r.people_vaccinated.isSome)) = true ∧
    (datos_procesados dfC5).filter
        (fun r => decide (rkey r = ("Ecuador", some 100))) =
      (((filtrado dfC5).filter
        (fun r => decide (rkey r = ("Ecuador", some 100)))).getLast?).toList :=
  ⟨(c5_normalizer_shape dfC5).1, (c5_normalizer_shape dfC5).2.1,
    (c5_normalizer_shape dfC5).2.2 ("Ecuador", some 100)⟩
